import Mathlib

/-!
Shallow embedding of the todos service persistence layer (`src/app.py`).

The Redis-backed state is modelled as a `Store` with four logical key
spaces, matching the key schema of the source:
* `index`   — the primary index set at `indexKey()` (`"<ns>index"`);
* `records` — the string values at `itemKey(id)` (`"<ns>item:<id>"`),
  holding MessagePack-encoded todo records;
* `fwd`     — the forward tag sets at `todoTagsKey(id)` (`"<ns>tags:<id>"`);
* `rev`     — the reverse tag sets at `tagTodosKey(tag)`
  (`"<ns>todos_by_tag:<tag>"`).

MessagePack values are modelled structurally by `Msg` (the library's
`packb`/`unpackb` pair is a faithful self-describing codec on these
values, so bytes are identified with the value they encode).  Redis set
replies (`smembers`) are unordered; where the Python code converts them
to lists we return the sorted list of the modelled `Finset`, which is
one admissible enumeration order.
-/

namespace Todos

/-- Namespace prefix, default of `REDIS_NAMESPACE`. -/
def REDIS_NAMESPACE : String := "todos:"

/-- A MessagePack value, as produced by `msgpack.packb` on the Python
dict coming out of `model_dump()`. -/
inductive Msg where
  | s : String → Msg
  | b : Bool → Msg
  | arr : List Msg → Msg
  | map : List (String × Msg) → Msg

/-- Dict lookup on the decoded MessagePack map (first binding wins, as
in a Python dict built from these pairs, whose keys are distinct). -/
def Msg.lookup (kvs : List (String × Msg)) (k : String) : Option Msg :=
  match kvs with
  | [] => none
  | (k', v) :: rest => if k' = k then some v else Msg.lookup rest k

/-- Does the encoded map carry a binding for key `k`? -/
def Msg.hasKey (m : Msg) (k : String) : Bool :=
  match m with
  | Msg.map kvs => (Msg.lookup kvs k).isSome
  | _ => false

/-- The internal `Todo` pydantic model: `id`, `title`, `done` (default
`False`), `tags` (default `[]`). -/
structure Todo where
  id : String
  title : String
  done : Bool := false
  tags : List String := []
deriving Repr, DecidableEq

/-- The `TodoOut` response model. -/
structure TodoOut where
  id : String
  title : String
  done : Bool
  tags : List String
deriving Repr, DecidableEq

/-- The `TodoUpdate` request model (`title`, `done`). -/
structure TodoUpdate where
  title : String
  done : Bool := false
deriving Repr, DecidableEq

/-- `Todo.key`: the record key `"<ns>item:<id>"`. -/
def Todo.key (todo_id : String) : String :=
  REDIS_NAMESPACE ++ "item:" ++ todo_id

/-- `Todo.index_key`: the primary index key `"<ns>index"`. -/
def Todo.index_key : String :=
  REDIS_NAMESPACE ++ "index"

/-- `_todo_tags_key`: forward tag set key `"<ns>tags:<id>"`. -/
def todoTagsKey (todo_id : String) : String :=
  REDIS_NAMESPACE ++ "tags:" ++ todo_id

/-- `_tag_todos_key`: reverse tag set key `"<ns>todos_by_tag:<tag>"`. -/
def tagTodosKey (tag : String) : String :=
  REDIS_NAMESPACE ++ "todos_by_tag:" ++ tag

/-- `Todo.dumps`: `msgpack.packb(self.model_dump(), use_bin_type=True)`.
`model_dump()` emits every field of the model in declaration order:
`id`, `title`, `done`, `tags`. -/
def Todo.dumps (t : Todo) : Msg :=
  Msg.map [("id", Msg.s t.id), ("title", Msg.s t.title),
           ("done", Msg.b t.done), ("tags", Msg.arr (t.tags.map Msg.s))]

/-- Decode a MessagePack array as a list of strings (the `tags` field);
any non-string element fails pydantic validation. -/
def decodeStrList : List Msg → Option (List String)
  | [] => some []
  | Msg.s x :: rest => (decodeStrList rest).map (x :: ·)
  | _ => none

/-- `Todo.loads`: `Todo.model_validate(msgpack.unpackb(data, raw=False))`.
Validation requires `id` and `title` to be strings; `done` defaults to
`false` and `tags` to `[]` when absent; wrongly-typed fields fail
(`none`). -/
def Todo.loads (m : Msg) : Option Todo :=
  match m with
  | Msg.map kvs =>
    match Msg.lookup kvs "id", Msg.lookup kvs "title" with
    | some (Msg.s i), some (Msg.s title) =>
      let done : Option Bool :=
        match Msg.lookup kvs "done" with
        | none => some false
        | some (Msg.b d) => some d
        | some _ => none
      let tags : Option (List String) :=
        match Msg.lookup kvs "tags" with
        | none => some []
        | some (Msg.arr ms) => decodeStrList ms
        | some _ => none
      match done, tags with
      | some d, some tg => some { id := i, title := title, done := d, tags := tg }
      | _, _ => none
    | _, _ => none
  | _ => none

/-- `Todo.to_out`. -/
def Todo.to_out (t : Todo) : TodoOut :=
  { id := t.id, title := t.title, done := t.done, tags := t.tags }

/-- The Redis state visible to the app, partitioned by the four key
families above (the prefixes `item:`, `index`, `tags:`,
`todos_by_tag:` never collide). -/
@[ext]
structure Store where
  index : Finset String
  records : String → Option Msg
  fwd : String → Finset String
  rev : String → Finset String

/-- `get_tags_for_todo`: `smembers` on the forward set, decoded to a
list of strings (sorted enumeration of the set). -/
def get_tags_for_todo (s : Store) (todo_id : String) : List String :=
  (s.fwd todo_id).sort (· ≤ ·)

/-- `save_todo`: one pipeline doing `sadd(index_key, id)` and
`set(key(id), dumps)`. -/
def save_todo (todo : Todo) (s : Store) : Store :=
  { s with
    index := insert todo.id s.index,
    records := fun k => if k = todo.id then some todo.dumps else s.records k }

/-- `get_todo`: read the record bytes; absent ⇒ `none`; otherwise
decode and overwrite `tags` with the current forward set. -/
def get_todo (s : Store) (todo_id : String) : Option Todo :=
  ((s.records todo_id).bind Todo.loads).map
    (fun t => { t with tags := get_tags_for_todo s todo_id })

/-- `delete_todo`: read the forward set, then one pipeline doing
`srem(index, id)`, `delete(key id)`, `delete(tags key id)`, and
`srem(todos_by_tag tag, id)` for each tag read. -/
def delete_todo (todo_id : String) (s : Store) : Store :=
  { index := s.index.erase todo_id,
    records := fun k => if k = todo_id then none else s.records k,
    fwd := fun k => if k = todo_id then ∅ else s.fwd k,
    rev := fun g => if g ∈ s.fwd todo_id then (s.rev g).erase todo_id else s.rev g }

/-- `add_tag_to_todo`: one pipeline doing `sadd` on the forward set and
`sadd` on the reverse set. -/
def add_tag_to_todo (todo_id tag : String) (s : Store) : Store :=
  { s with
    fwd := fun k => if k = todo_id then insert tag (s.fwd k) else s.fwd k,
    rev := fun g => if g = tag then insert todo_id (s.rev g) else s.rev g }

/-- `remove_tag_from_todo`: one pipeline doing `srem` on both sides. -/
def remove_tag_from_todo (todo_id tag : String) (s : Store) : Store :=
  { s with
    fwd := fun k => if k = todo_id then (s.fwd k).erase tag else s.fwd k,
    rev := fun g => if g = tag then (s.rev g).erase todo_id else s.rev g }

/-- The tag index's reverse set for `tag`, as read by
`redis.smembers(_tag_todos_key(tag))` in `get_todos_by_tag`. -/
def todosWithTag (s : Store) (tag : String) : Finset String :=
  s.rev tag

/-- `list_todos`: `sscan` the primary index accumulating at most
`limit` ids, `mget` the records, `smembers` each forward set, and zip;
ids whose record is gone (or fails to decode) are dropped. -/
def list_todos (s : Store) (limit : Nat) : List Todo :=
  let ids := (s.index.sort (· ≤ ·)).take limit
  ids.filterMap fun tid =>
    ((s.records tid).bind Todo.loads).map
      (fun t => { t with tags := get_tags_for_todo s tid })

/-- `update_todo_handler` (`PUT /todos/{id}`): 404 and no mutation when
the todo is absent; otherwise overwrite `title`/`done` on the fetched
todo, save it, and return it. -/
def update_todo_handler (todo_id : String) (data : TodoUpdate) (s : Store) :
    Option TodoOut × Store :=
  match get_todo s todo_id with
  | none => (none, s)
  | some todo =>
    let todo' := { todo with title := data.title, done := data.done }
    (some todo'.to_out, save_todo todo' s)

/-- `delete_todo_handler` (`DELETE /todos/{id}`): always runs
`delete_todo` and returns 204. -/
def delete_todo_handler (todo_id : String) (s : Store) : Store :=
  delete_todo todo_id s

/-- `add_tag_handler` (`POST /todos/{id}/tags`): 404 and no mutation
when the todo is absent, otherwise `add_tag_to_todo` and 201. -/
def add_tag_handler (todo_id tag : String) (s : Store) : Option Unit × Store :=
  match get_todo s todo_id with
  | none => (none, s)
  | some _ => (some (), add_tag_to_todo todo_id tag s)

/-- `remove_tag_handler` (`DELETE /todos/{id}/tags/{tag}`): 404 and no
mutation when the todo is absent, otherwise `remove_tag_from_todo`. -/
def remove_tag_handler (todo_id tag : String) (s : Store) : Option Unit × Store :=
  match get_todo s todo_id with
  | none => (none, s)
  | some _ => (some (), remove_tag_from_todo todo_id tag s)

/-- `get_tags_handler` (`GET /todos/{id}/tags`): `[]` when the todo is
absent (no 404 here), otherwise `get_tags_for_todo`. -/
def get_tags_handler (todo_id : String) (s : Store) : List String :=
  match get_todo s todo_id with
  | none => []
  | some _ => get_tags_for_todo s todo_id

/-! ### Helper lemmas -/

/-- Decoding a string array built from strings recovers them. -/
theorem decodeStrList_map_s (xs : List String) :
    decodeStrList (xs.map Msg.s) = some xs := by
  induction xs with
  | nil => rfl
  | cons x xs ih => simp [decodeStrList, ih]

/-- The codec round-trips on every todo value. -/
theorem loads_dumps (t : Todo) : Todo.loads t.dumps = some t := by
  simp [Todo.dumps, Todo.loads, Msg.lookup, decodeStrList_map_s]

/-- Membership in the decoded forward set is membership in `fwd`. -/
theorem mem_get_tags_for_todo (s : Store) (todo_id g : String) :
    g ∈ get_tags_for_todo s todo_id ↔ g ∈ s.fwd todo_id := by
  simp [get_tags_for_todo, Finset.mem_sort]

/-- The empty store: fresh Redis database. -/
def emptyStore : Store :=
  { index := ∅, records := fun _ => none, fwd := fun _ => ∅, rev := fun _ => ∅ }

/-! ### Claims -/

/-- **C1.** After `add_tag_to_todo T G`, `G` is in the forward set read
back by `get_tags_for_todo T` and `T` is in the reverse set
`todosWithTag G`; after `remove_tag_from_todo T G`, both memberships
are false; and both operations preserve bidirectional consistency of
the forward and reverse tag sets. -/
theorem addRemoveTag_bidirectional (s : Store) (T G : String) :
    (G ∈ get_tags_for_todo (add_tag_to_todo T G s) T ∧
      T ∈ todosWithTag (add_tag_to_todo T G s) G) ∧
    (G ∉ get_tags_for_todo (remove_tag_from_todo T G s) T ∧
      T ∉ todosWithTag (remove_tag_from_todo T G s) G) ∧
    ((∀ x g, x ∈ s.rev g ↔ g ∈ s.fwd x) →
      (∀ x g, x ∈ (add_tag_to_todo T G s).rev g ↔
        g ∈ (add_tag_to_todo T G s).fwd x) ∧
      (∀ x g, x ∈ (remove_tag_from_todo T G s).rev g ↔
        g ∈ (remove_tag_from_todo T G s).fwd x)) := by
  have hrevA : ∀ x g, x ∈ (add_tag_to_todo T G s).rev g ↔
      (g = G ∧ x = T) ∨ x ∈ s.rev g := by
    intro x g
    simp only [add_tag_to_todo]
    by_cases hg : g = G <;> simp [hg, Finset.mem_insert]
  have hfwdA : ∀ x g, g ∈ (add_tag_to_todo T G s).fwd x ↔
      (x = T ∧ g = G) ∨ g ∈ s.fwd x := by
    intro x g
    simp only [add_tag_to_todo]
    by_cases hx : x = T <;> simp [hx, Finset.mem_insert]
  have hrevR : ∀ x g, x ∈ (remove_tag_from_todo T G s).rev g ↔
      x ∈ s.rev g ∧ ¬(g = G ∧ x = T) := by
    intro x g
    simp only [remove_tag_from_todo]
    by_cases hg : g = G
    · simp only [hg, if_pos]
      rw [Finset.mem_erase]
      tauto
    · simp [hg]
  have hfwdR : ∀ x g, g ∈ (remove_tag_from_todo T G s).fwd x ↔
      g ∈ s.fwd x ∧ ¬(x = T ∧ g = G) := by
    intro x g
    simp only [remove_tag_from_todo]
    by_cases hx : x = T
    · simp only [hx, if_pos]
      rw [Finset.mem_erase]
      tauto
    · simp [hx]
  refine ⟨⟨?_, ?_⟩, ⟨?_, ?_⟩, fun hinv => ⟨?_, ?_⟩⟩
  · simp [mem_get_tags_for_todo, add_tag_to_todo]
  · simp [todosWithTag, add_tag_to_todo]
  · simp [mem_get_tags_for_todo, remove_tag_from_todo]
  · simp [todosWithTag, remove_tag_from_todo]
  · intro x g
    rw [hrevA x g, hfwdA x g, hinv x g]
    tauto
  · intro x g
    rw [hrevR x g, hfwdR x g, hinv x g]
    tauto

/-- **C1 witness.** On the empty store with `T = "t1"`, `G = "urgent"`:
the post-conditions hold and consistency is preserved. -/
theorem addRemoveTag_bidirectional_witness :
    ("urgent" ∈ get_tags_for_todo (add_tag_to_todo "t1" "urgent" emptyStore) "t1" ∧
      "t1" ∈ todosWithTag (add_tag_to_todo "t1" "urgent" emptyStore) "urgent") ∧
    ("urgent" ∉ get_tags_for_todo (remove_tag_from_todo "t1" "urgent" emptyStore) "t1" ∧
      "t1" ∉ todosWithTag (remove_tag_from_todo "t1" "urgent" emptyStore) "urgent") ∧
    ("t1" ∈ (add_tag_to_todo "t1" "urgent" emptyStore).rev "urgent" ↔
      "urgent" ∈ (add_tag_to_todo "t1" "urgent" emptyStore).fwd "t1") := by
  have h := addRemoveTag_bidirectional emptyStore "t1" "urgent"
  refine ⟨h.1, h.2.1, ?_⟩
  have hc := h.2.2 (by intro x g; simp [emptyStore])
  exact hc.1 "t1" "urgent"

/-- **C3.** For every valid todo (title length 1–200), decoding the
encoded record restores the todo exactly, in particular `id`, `title`
and `done`. -/
theorem loads_dumps_roundtrip (t : Todo)
    (_h1 : 1 ≤ t.title.length) (_h2 : t.title.length ≤ 200) :
    Todo.loads t.dumps = some t :=
  loads_dumps t

/-- **C3 witness.** Round-trip at a concrete valid todo. -/
theorem loads_dumps_roundtrip_witness :
    1 ≤ ("buy milk" : String).length ∧ ("buy milk" : String).length ≤ 200 ∧
    Todo.loads (Todo.dumps { id := "t1", title := "buy milk", done := true, tags := [] }) =
      some { id := "t1", title := "buy milk", done := true, tags := [] } :=
  ⟨by decide, by decide,
    loads_dumps_roundtrip { id := "t1", title := "buy milk", done := true, tags := [] }
      (by decide) (by decide)⟩

/-- **C4 counterexample.** The claim "the encoded record does not embed
the `tags` field" is false: `dumps` packs `model_dump()`, which
includes `tags`, so the encoded map has a `"tags"` binding. -/
theorem dumps_embeds_tags_counterexample :
    (Todo.dumps { id := "t1", title := "buy milk" }).hasKey "tags" = true := by
  rfl

/-- **C4 (amended).** Every encoded record embeds the `tags` field
(alongside the other fields); tags are additionally stored in the
separate tag-index sets, which is what reads consult. -/
theorem dumps_embeds_tags (t : Todo) :
    (Todo.dumps t).hasKey "tags" = true ∧
    Msg.lookup [("id", Msg.s t.id), ("title", Msg.s t.title),
      ("done", Msg.b t.done), ("tags", Msg.arr (t.tags.map Msg.s))] "tags" =
      some (Msg.arr (t.tags.map Msg.s)) := by
  exact ⟨rfl, rfl⟩

/-- The tags of any todo returned by `get_todo` are the current forward
set, read at `get` time. -/
theorem tags_of_get_todo {s : Store} {T : String} {t : Todo}
    (h : get_todo s T = some t) : t.tags = get_tags_for_todo s T := by
  simp only [get_todo] at h
  obtain ⟨u, _, hf⟩ := Option.map_eq_some'.mp h
  exact hf ▸ rfl

/-- Under bidirectional consistency at `T`, `delete_todo T` leaves `T`
in no reverse set. -/
theorem not_mem_rev_after_delete (s : Store) (T : String)
    (hinv : ∀ g, T ∈ s.rev g ↔ g ∈ s.fwd T) (g : String) :
    T ∉ (delete_todo T s).rev g := by
  simp only [delete_todo]
  by_cases hg : g ∈ s.fwd T
  · rw [if_pos hg]
    exact Finset.not_mem_erase T (s.rev g)
  · rw [if_neg hg]
    exact fun h => hg ((hinv g).mp h)

/-- A store holding one todo `"t1"` tagged `"a"`, with consistent
forward and reverse sets. -/
def storeOneTag : Store :=
  { index := {"t1"},
    records := fun k =>
      if k = "t1" then some (Todo.dumps { id := "t1", title := "x" }) else none,
    fwd := fun k => if k = "t1" then {"a"} else ∅,
    rev := fun g => if g = "a" then {"t1"} else ∅ }

/-- `storeOneTag` satisfies the bidirectional invariant at `"t1"`. -/
theorem storeOneTag_inv : ∀ g, "t1" ∈ storeOneTag.rev g ↔ g ∈ storeOneTag.fwd "t1" := by
  intro g
  by_cases hg : g = "a" <;> simp [storeOneTag, hg]

/-- **C2.** After `delete_todo T`, every tag `G` previously in the
forward set of `T` no longer lists `T` in its reverse set, the record
at `itemKey T` is gone, `T` is out of the primary index, the forward
set of `T` is deleted, and (under bidirectional consistency) no reverse
set mentions `T` at all. -/
theorem delete_todo_cascades (s : Store) (T : String)
    (hinv : ∀ g, T ∈ s.rev g ↔ g ∈ s.fwd T) :
    (∀ G ∈ get_tags_for_todo s T, T ∉ todosWithTag (delete_todo T s) G) ∧
    (delete_todo T s).records T = none ∧
    T ∉ (delete_todo T s).index ∧
    (delete_todo T s).fwd T = ∅ ∧
    (∀ G, T ∉ todosWithTag (delete_todo T s) G) := by
  have hall : ∀ G, T ∉ todosWithTag (delete_todo T s) G :=
    fun G => not_mem_rev_after_delete s T hinv G
  refine ⟨fun G _ => hall G, ?_, ?_, ?_, hall⟩
  · simp [delete_todo]
  · exact Finset.not_mem_erase T s.index
  · simp [delete_todo]

/-- **C2 witness.** Deleting `"t1"` from `storeOneTag` removes it from
the reverse set of its tag `"a"`, drops its record, its index entry and
its forward set. -/
theorem delete_todo_cascades_witness :
    "t1" ∉ todosWithTag (delete_todo "t1" storeOneTag) "a" ∧
    (delete_todo "t1" storeOneTag).records "t1" = none ∧
    "t1" ∉ (delete_todo "t1" storeOneTag).index ∧
    (delete_todo "t1" storeOneTag).fwd "t1" = ∅ := by
  have h := delete_todo_cascades storeOneTag "t1" storeOneTag_inv
  exact ⟨h.2.2.2.2 "a", h.2.1, h.2.2.1, h.2.2.2.1⟩

/-- **C6.** `delete_todo` is idempotent: a second delete of the same id
is the identity on the resulting store (so it raises no error and
changes nothing), and after a delete no trace of the id remains in the
primary index, its forward set, or (under bidirectional consistency)
any reverse set. -/
theorem delete_todo_idempotent (s : Store) (T : String)
    (hinv : ∀ g, T ∈ s.rev g ↔ g ∈ s.fwd T) :
    delete_todo T (delete_todo T s) = delete_todo T s ∧
    T ∉ (delete_todo T s).index ∧
    (delete_todo T s).fwd T = ∅ ∧
    (∀ g, T ∉ (delete_todo T s).rev g) := by
  refine ⟨?_, Finset.not_mem_erase T s.index, by simp [delete_todo],
    fun g => not_mem_rev_after_delete s T hinv g⟩
  refine Store.ext ?_ ?_ ?_ ?_
  · show ((delete_todo T s).index).erase T = (delete_todo T s).index
    exact Finset.erase_eq_of_not_mem (Finset.not_mem_erase T s.index)
  · funext k
    by_cases hk : k = T <;> simp [delete_todo, hk]
  · funext k
    by_cases hk : k = T <;> simp [delete_todo, hk]
  · funext g
    simp [delete_todo]

/-- **C6 witness.** Double delete of `"t1"` on `storeOneTag` equals a
single delete, which leaves no trace of `"t1"`. -/
theorem delete_todo_idempotent_witness :
    delete_todo "t1" (delete_todo "t1" storeOneTag) = delete_todo "t1" storeOneTag ∧
    "t1" ∉ (delete_todo "t1" storeOneTag).index ∧
    (delete_todo "t1" storeOneTag).fwd "t1" = ∅ ∧
    "t1" ∉ (delete_todo "t1" storeOneTag).rev "a" := by
  have h := delete_todo_idempotent storeOneTag "t1" storeOneTag_inv
  exact ⟨h.1, h.2.1, h.2.2.1, h.2.2.2 "a"⟩

/-- **C7.** `list_todos` returns at most `limit` todos on every store;
the limit only truncates. -/
theorem list_todos_length_le (s : Store) (limit : Nat) :
    (list_todos s limit).length ≤ limit := by
  calc (list_todos s limit).length
      ≤ ((s.index.sort (· ≤ ·)).take limit).length := List.length_filterMap_le _ _
    _ ≤ limit := List.length_take_le _ _

/-- **C8.** For an id with no stored record, `get_tags_handler`
returns `[]` with no error, while `add_tag_handler` and
`remove_tag_handler` return the not-found signal and leave the store
unchanged. -/
theorem absent_id_tag_boundary (s : Store) (T g : String)
    (h : s.records T = none) :
    get_tags_handler T s = [] ∧
    add_tag_handler T g s = (none, s) ∧
    remove_tag_handler T g s = (none, s) := by
  have hget : get_todo s T = none := by simp [get_todo, h]
  exact ⟨by simp [get_tags_handler, hget], by simp [add_tag_handler, hget],
    by simp [remove_tag_handler, hget]⟩

/-- **C8 witness.** On the empty store, id `"t1"` is absent: listing
its tags gives `[]`, while tag add/remove signal not-found and do not
mutate. -/
theorem absent_id_tag_boundary_witness :
    get_tags_handler "t1" emptyStore = [] ∧
    add_tag_handler "t1" "a" emptyStore = (none, emptyStore) ∧
    remove_tag_handler "t1" "a" emptyStore = (none, emptyStore) :=
  absent_id_tag_boundary emptyStore "t1" "a" rfl

/-- A store whose record for `"t1"` embeds the stale tag list
`["stale"]` while the tag index holds `{"fresh"}`. -/
def storeStale : Store :=
  { index := {"t1"},
    records := fun k =>
      if k = "t1" then
        some (Todo.dumps { id := "t1", title := "x", done := false, tags := ["stale"] })
      else none,
    fwd := fun k => if k = "t1" then {"fresh"} else ∅,
    rev := fun g => if g = "fresh" then {"t1"} else ∅ }

/-- **C9.** Whatever tags value was embedded in the stored record, the
todo returned by `get_todo` carries the current forward tag set read
from the tag index. -/
theorem get_todo_tags_from_index (s : Store) (T : String) (t : Todo)
    (h : get_todo s T = some t) : t.tags = get_tags_for_todo s T :=
  tags_of_get_todo h

/-- **C9 witness.** On `storeStale`, whose record embeds `["stale"]`,
`get_todo` returns the index tags `["fresh"]`, and they equal the
forward set read. -/
theorem get_todo_tags_from_index_witness :
    get_todo storeStale "t1" =
      some { id := "t1", title := "x", done := false, tags := ["fresh"] } ∧
    ({ id := "t1", title := "x", done := false, tags := ["fresh"] } : Todo).tags =
      get_tags_for_todo storeStale "t1" := by
  have heval : get_todo storeStale "t1" =
      some { id := "t1", title := "x", done := false, tags := ["fresh"] } := by
    simp [get_todo, storeStale, loads_dumps, get_tags_for_todo, Finset.sort_singleton]
  exact ⟨heval, get_todo_tags_from_index storeStale "t1" _ heval⟩

/-- **C10.** `add_tag_to_todo T G` and `remove_tag_from_todo T G`
leave the primary index, every stored record, every other todo's
forward set and every other tag's reverse set unchanged. -/
theorem tag_ops_frame (s : Store) (T G x g : String) (hx : x ≠ T) (hg : g ≠ G) :
    ((add_tag_to_todo T G s).index = s.index ∧
     (add_tag_to_todo T G s).records = s.records ∧
     (add_tag_to_todo T G s).fwd x = s.fwd x ∧
     (add_tag_to_todo T G s).rev g = s.rev g) ∧
    ((remove_tag_from_todo T G s).index = s.index ∧
     (remove_tag_from_todo T G s).records = s.records ∧
     (remove_tag_from_todo T G s).fwd x = s.fwd x ∧
     (remove_tag_from_todo T G s).rev g = s.rev g) := by
  simp [add_tag_to_todo, remove_tag_from_todo, hx, hg]

/-- **C10 witness.** On the empty store, tagging `"t1"` with `"a"`
leaves the index, records, `"t2"`'s forward set and `"b"`'s reverse
set untouched, for both add and remove. -/
theorem tag_ops_frame_witness :
    ((add_tag_to_todo "t1" "a" emptyStore).index = emptyStore.index ∧
     (add_tag_to_todo "t1" "a" emptyStore).records = emptyStore.records ∧
     (add_tag_to_todo "t1" "a" emptyStore).fwd "t2" = emptyStore.fwd "t2" ∧
     (add_tag_to_todo "t1" "a" emptyStore).rev "b" = emptyStore.rev "b") ∧
    ((remove_tag_from_todo "t1" "a" emptyStore).index = emptyStore.index ∧
     (remove_tag_from_todo "t1" "a" emptyStore).records = emptyStore.records ∧
     (remove_tag_from_todo "t1" "a" emptyStore).fwd "t2" = emptyStore.fwd "t2" ∧
     (remove_tag_from_todo "t1" "a" emptyStore).rev "b" = emptyStore.rev "b") :=
  tag_ops_frame emptyStore "t1" "a" "t2" "b" (by decide) (by decide)

/-- **C5.** When `T` has a record (decoding to a todo whose embedded id
is `T`), `update_todo_handler` returns and persists a todo with the
same id, the new `title`/`done`, and the unchanged forward tag set (a
subsequent `get_todo` observes exactly the pre-update tags); when `T`
is absent it returns the not-found signal and leaves the store
unchanged. -/
theorem update_todo_handler_spec (s : Store) (T : String) (d : TodoUpdate) :
    (∀ t, get_todo s T = some t → t.id = T →
      (update_todo_handler T d s).1 =
        some { id := T, title := d.title, done := d.done,
               tags := get_tags_for_todo s T } ∧
      get_todo (update_todo_handler T d s).2 T =
        some { id := T, title := d.title, done := d.done,
               tags := get_tags_for_todo s T } ∧
      (update_todo_handler T d s).2.fwd = s.fwd ∧
      (update_todo_handler T d s).2.rev = s.rev ∧
      get_tags_for_todo (update_todo_handler T d s).2 T = get_tags_for_todo s T) ∧
    (get_todo s T = none → update_todo_handler T d s = (none, s)) := by
  constructor
  · intro t h hid
    have htags := tags_of_get_todo h
    obtain ⟨tid, ttitle, tdone, ttags⟩ := t
    simp only at hid htags
    subst hid
    subst htags
    simp only [update_todo_handler, h]
    simp [get_todo, save_todo, loads_dumps, get_tags_for_todo, Todo.to_out]
  · intro h
    simp [update_todo_handler, h]

/-- **C5 witness.** Updating `"t1"` on `storeOneTag` to
`{title := "y", done := true}` returns and persists the new fields with
id `"t1"` and the pre-update tags; updating absent `"t2"` signals
not-found and changes nothing. -/
theorem update_todo_handler_spec_witness :
    ((update_todo_handler "t1" { title := "y", done := true } storeOneTag).1 =
      some { id := "t1", title := "y", done := true,
             tags := get_tags_for_todo storeOneTag "t1" } ∧
     get_todo (update_todo_handler "t1" { title := "y", done := true } storeOneTag).2 "t1" =
      some { id := "t1", title := "y", done := true,
             tags := get_tags_for_todo storeOneTag "t1" } ∧
     (update_todo_handler "t1" { title := "y", done := true } storeOneTag).2.fwd =
       storeOneTag.fwd ∧
     (update_todo_handler "t1" { title := "y", done := true } storeOneTag).2.rev =
       storeOneTag.rev ∧
     get_tags_for_todo
       (update_todo_handler "t1" { title := "y", done := true } storeOneTag).2 "t1" =
       get_tags_for_todo storeOneTag "t1") ∧
    update_todo_handler "t2" { title := "y", done := true } storeOneTag =
      (none, storeOneTag) := by
  have heval : get_todo storeOneTag "t1" =
      some { id := "t1", title := "x", done := false, tags := ["a"] } := by
    simp [get_todo, storeOneTag, loads_dumps, get_tags_for_todo, Finset.sort_singleton]
  have habs : get_todo storeOneTag "t2" = none := by
    simp [get_todo, storeOneTag]
  exact ⟨(update_todo_handler_spec storeOneTag "t1" { title := "y", done := true }).1
      _ heval rfl,
    (update_todo_handler_spec storeOneTag "t2" { title := "y", done := true }).2 habs⟩

end Todos
